import Mathlib

/-!
Shallow embedding of `table_properties/db.py` (cassandra-table-properties).

Python runtime values are modelled by the inductive type `PyVal`; Python
dictionaries (and the driver's `OrderedMapSerializedKey`) are association
lists preserving insertion order, with the invariant (true of every real
dict) that keys are unique.  Python exceptions are modelled by `PyExc` and
fallible code returns `Except PyExc _`.  The external Cassandra driver is
modelled by an oracle (`ClusterEnv`) mapping the cluster parameters and the
CQL statement to an outcome (rows, a connect-time error, or an
execute-time error).
-/

/-- Model of a Python float value: a finite float is carried as the exact
rational value of its literal (IEEE rounding is abstracted away), plus the
special values infinity (signed) and nan. -/
inductive PyFloat where
  | finite (q : Rat)
  | inf (neg : Bool)
  | nan
deriving DecidableEq, Repr

/-- Model of the Python runtime values that flow through `db.py`:
strings, ints, floats, bools, `None`, lists, the driver's
`cassandra.util.OrderedMapSerializedKey` (an insertion-ordered mapping),
the driver's `cassandra.util.SortedSet`, UUID values (carried as their
canonical textual form), plain dicts, and the opaque
`cassandra.policies.RoundRobinPolicy()` object. -/
inductive PyVal where
  | str (s : String)
  | int (n : Int)
  | float (f : PyFloat)
  | bool (b : Bool)
  | none
  | list (xs : List PyVal)
  | orderedMap (entries : List (String × PyVal))
  | sortedSet (xs : List PyVal)
  | uuid (s : String)
  | dict (entries : List (String × PyVal))
  | roundRobinPolicy
deriving Repr

/-- Model of the Python exceptions that `db.py` can see: `AttributeError`,
a generic `Exception(msg)`, the driver's `cassandra.cluster.NoHostAvailable`,
and arbitrary other driver-side errors. -/
inductive PyExc where
  | attributeError (msg : String)
  | exception (msg : String)
  | noHostAvailable (msg : String)
  | otherError (name : String) (msg : String)
deriving DecidableEq, Repr

/-- Strip leading and trailing whitespace from a character list (the
whitespace stripping of Python's `int()`/`float()` string conversion). -/
def trimChars (cs : List Char) : List Char :=
  ((cs.dropWhile Char.isWhitespace).reverse.dropWhile Char.isWhitespace).reverse

/-- Lower-case a string character by character (ASCII model of Python's
`str.lower()`). -/
def lowerStr (s : String) : String :=
  String.mk (s.toList.map Char.toLower)

/-- Models Python's `s.startswith(p)`. -/
def strStartsWith (s p : String) : Bool :=
  p.toList.isPrefixOf s.toList

/-- Numeric value of an ASCII digit character, `Option.none` otherwise. -/
def digitVal (c : Char) : Option Nat :=
  if c.isDigit then some (c.toNat - 48) else Option.none

/-- Continue parsing a Python digit-part after its first digit: a sequence
of ASCII digits in which single underscores may appear between digits
(Python's `digitpart` grammar). -/
def parseDigitsURest (acc : Nat) : List Char → Option Nat
  | [] => some acc
  | '_' :: c :: cs =>
    match digitVal c with
    | some d => parseDigitsURest (acc * 10 + d) cs
    | Option.none => Option.none
  | c :: cs =>
    match digitVal c with
    | some d => parseDigitsURest (acc * 10 + d) cs
    | Option.none => Option.none

/-- Parse an entire character list as a Python digit-part (non-empty ASCII
digits with single underscores between digits). -/
def parseDigitsU : List Char → Option Nat
  | c :: cs =>
    match digitVal c with
    | some d => parseDigitsURest d cs
    | Option.none => Option.none
  | [] => Option.none

/-- Model of Python's built-in `int(<str>)`: surrounding whitespace is
stripped, an optional sign precedes a non-empty digit-part.  (Non-ASCII
digits and exotic whitespace are outside the model.) -/
def pyParseInt (s : String) : Option Int :=
  match trimChars s.toList with
  | '+' :: cs => (parseDigitsU cs).map Int.ofNat
  | '-' :: cs => (parseDigitsU cs).map (fun n => -(n : Int))
  | cs => (parseDigitsU cs).map Int.ofNat

/-- Consume a maximal digit-part from the front of a character list,
returning its value, its number of digits, and the unconsumed remainder.
An underscore is consumed only when a digit follows it. -/
def takeDigitsURest (v nd : Nat) : List Char → (Nat × Nat) × List Char
  | [] => ((v, nd), [])
  | '_' :: c :: cs =>
    if c.isDigit then takeDigitsURest (v * 10 + (c.toNat - 48)) (nd + 1) cs
    else ((v, nd), '_' :: c :: cs)
  | c :: cs =>
    if c.isDigit then takeDigitsURest (v * 10 + (c.toNat - 48)) (nd + 1) cs
    else ((v, nd), c :: cs)

/-- Consume a maximal non-empty digit-part from the front of a character
list; fails when the list does not start with a digit. -/
def takeDigitsU : List Char → Option ((Nat × Nat) × List Char)
  | c :: cs =>
    if c.isDigit then some (takeDigitsURest (c.toNat - 48) 1 cs)
    else Option.none
  | [] => Option.none

/-- Parse an optionally signed digit-part occupying an entire character
list (the exponent part of a Python float literal). -/
def parseSignedDigitsU : List Char → Option Int
  | '+' :: cs => (parseDigitsU cs).map Int.ofNat
  | '-' :: cs => (parseDigitsU cs).map (fun n => -(n : Int))
  | cs => (parseDigitsU cs).map Int.ofNat

/-- Scale a rational by a signed power of ten (the exponent of a float
literal). -/
def applyExp (q : Rat) (e : Int) : Rat :=
  if 0 ≤ e then q * (10 : Rat) ^ e.toNat else q / (10 : Rat) ^ (-e).toNat

/-- Finish parsing a float literal after its mantissa: the remainder must
be empty or an `e`/`E` exponent. -/
def withExp (q : Rat) : List Char → Option Rat
  | [] => some q
  | 'e' :: cs => (parseSignedDigitsU cs).map (applyExp q)
  | 'E' :: cs => (parseSignedDigitsU cs).map (applyExp q)
  | _ => Option.none

/-- Parse the unsigned numeric part of a Python float literal:
`digitpart [. [digitpart]] [exp]` or `. digitpart [exp]`. -/
def pyParseFloatMag (cs : List Char) : Option Rat :=
  match takeDigitsU cs with
  | some ((i, _), rest) =>
    match rest with
    | '.' :: rest2 =>
      match takeDigitsU rest2 with
      | some ((f, nf), rest3) =>
        withExp ((i : Rat) + (f : Rat) / (10 : Rat) ^ nf) rest3
      | Option.none => withExp (i : Rat) rest2
    | _ => withExp (i : Rat) rest
  | Option.none =>
    match cs with
    | '.' :: rest2 =>
      match takeDigitsU rest2 with
      | some ((f, nf), rest3) =>
        withExp ((f : Rat) / (10 : Rat) ^ nf) rest3
      | Option.none => Option.none
    | _ => Option.none

/-- Parse an unsigned Python float body: `inf`, `infinity`, `nan`
(case-insensitive) or a numeric literal. -/
def pyParseFloatUnsigned (neg : Bool) (cs : List Char) : Option PyFloat :=
  let lower := cs.map Char.toLower
  if lower = "inf".toList ∨ lower = "infinity".toList then
    some (PyFloat.inf neg)
  else if lower = "nan".toList then
    some PyFloat.nan
  else
    (pyParseFloatMag cs).map fun q =>
      PyFloat.finite (if neg then -q else q)

/-- Model of Python's built-in `float(<str>)`: surrounding whitespace is
stripped, an optional sign precedes `inf`/`infinity`/`nan` or a numeric
literal; the finite value is returned exactly as a rational. -/
def pyParseFloat (s : String) : Option PyFloat :=
  match trimChars s.toList with
  | '+' :: cs => pyParseFloatUnsigned false cs
  | '-' :: cs => pyParseFloatUnsigned true cs
  | cs => pyParseFloatUnsigned false cs

/-- Embeds `db.convert_value`: a non-string is returned unchanged; a
string is parsed as an int if possible, else as a float if possible, else
returned unchanged. -/
def convert_value (val : PyVal) : PyVal :=
  match val with
  | PyVal.str s =>
    match pyParseInt s with
    | some n => PyVal.int n
    | Option.none =>
      match pyParseFloat s with
      | some f => PyVal.float f
      | Option.none => PyVal.str s
  | v => v

/-- Python's `str.split(".")` on the character-list representation: splits
on every dot, keeping empty segments (so the result is never empty). -/
def splitOnDot : List Char → List (List Char)
  | [] => [[]]
  | c :: rest =>
    let r := splitOnDot rest
    if c = '.' then [] :: r
    else
      match r with
      | h :: t => (c :: h) :: t
      | [] => [[c]]

/-- Embeds `db.get_class_name`: `full_class_name.split(".")[-1]`, the last
segment after splitting on ".". -/
def get_class_name (full_class_name : String) : String :=
  String.mk ((splitOnDot full_class_name.toList).getLastD [])

/-- Embeds `db.key_mapper`: renames "keyspace_name" and "table_name" to
"name", everything else maps to itself. -/
def key_mapper (orig_key : String) : String :=
  if orig_key = "keyspace_name" then "name"
  else if orig_key = "table_name" then "name"
  else orig_key

/-- Association-list lookup modelling `d[k]` / `k in d` on a Python dict
(keys of a real dict are unique, so first match is the match). -/
def dictLookup : List (String × PyVal) → String → Option PyVal
  | [], _ => Option.none
  | (k2, v) :: rest, k => if k2 = k then some v else dictLookup rest k

/-- Models Python `d.get(k)`: `None` when the key is absent. -/
def dictGet (d : List (String × PyVal)) (k : String) : PyVal :=
  (dictLookup d k).getD PyVal.none

/-- Models Python `d[k] = v`: updates the existing entry in place (keeping
its position) or appends a new entry at the end. -/
def dictSet : List (String × PyVal) → String → PyVal → List (String × PyVal)
  | [], k, v => [(k, v)]
  | (k2, v2) :: rest, k, v =>
    if k2 = k then (k2, v) :: rest else (k2, v2) :: dictSet rest k v

/-- Embeds `db.get_local_connection`: the dictionary of local connection
parameters. -/
def get_local_connection : List (String × PyVal) :=
  [("hosts", PyVal.list [PyVal.str "localhost"]),
   ("port", PyVal.int 9042),
   ("load_balancing_policy", PyVal.roundRobinPolicy)]

/-- Embeds `db.get_default_connection`: returns the local connection
parameters. -/
def get_default_connection : List (String × PyVal) :=
  get_local_connection

/-- Models Python `str(v)` for the values `db.py` stringifies (the "id"
column is a UUID, whose `str` is its canonical text).  Containers get a
schematic rendering; no claim depends on it. -/
def pyStr : PyVal → String
  | PyVal.str s => s
  | PyVal.int n => toString n
  | PyVal.float (PyFloat.finite q) => toString q
  | PyVal.float (PyFloat.inf b) => if b then "-inf" else "inf"
  | PyVal.float PyFloat.nan => "nan"
  | PyVal.bool b => if b then "True" else "False"
  | PyVal.none => "None"
  | PyVal.uuid s => s
  | PyVal.list _ => "<list>"
  | PyVal.orderedMap _ => "<OrderedMapSerializedKey>"
  | PyVal.sortedSet _ => "<SortedSet>"
  | PyVal.dict _ => "<dict>"
  | PyVal.roundRobinPolicy => "<RoundRobinPolicy>"

/-- Models Python `v.lower()`: succeeds only on strings, raising
`AttributeError` otherwise (in particular on `None`). -/
def pyLower : PyVal → Except PyExc String
  | PyVal.str s => Except.ok (lowerStr s)
  | _ => Except.error (PyExc.attributeError "object has no attribute lower")

/-- Models `get_class_name` applied to a runtime value: `.split` exists
only on strings, so any other value raises `AttributeError`. -/
def pyClassName : PyVal → Except PyExc String
  | PyVal.str s => Except.ok (get_class_name s)
  | _ => Except.error (PyExc.attributeError "object has no attribute split")

/-- Decides `isinstance(v, cassandra.util.OrderedMapSerializedKey)`. -/
def isOrderedMapB : PyVal → Bool
  | PyVal.orderedMap _ => true
  | _ => false

/-- The loop of `db.get_replication_settings`: walks the entries of the
replication map in iteration order, accumulating the partial `repl_config`
dict and the `data_centers` list.  A "class" entry whose value is not a
string raises `AttributeError` (from `.split`), exactly as in Python;
otherwise each step updates `repl_config["class"]`,
`repl_config["replication_factor"]`, or appends a data-center record.
(Keys of a real `OrderedMapSerializedKey` are unique, so the value paired
with the iterated key is the value `replication[key]` looks up.) -/
def repl_loop :
    List (String × PyVal) → List (String × PyVal) → List PyVal →
    Except PyExc (List (String × PyVal) × List PyVal)
  | [], rc, dcs => Except.ok (rc, dcs)
  | (k, v) :: rest, rc, dcs =>
    if k = "class" then
      match pyClassName v with
      | Except.ok cls => repl_loop rest (dictSet rc "class" (PyVal.str cls)) dcs
      | Except.error e => Except.error e
    else if k = "replication_factor" then
      repl_loop rest (dictSet rc "replication_factor" (convert_value v)) dcs
    else
      repl_loop rest rc
        (dcs ++ [PyVal.dict
          [("name", PyVal.str k), ("replication_factor", convert_value v)]])

/-- Embeds `db.get_replication_settings`: inputs that are not an
`OrderedMapSerializedKey` yield the empty dict; otherwise the loop runs
and the accumulated `data_centers` list is stored under "data_centers". -/
def get_replication_settings (replication : PyVal) :
    Except PyExc (List (String × PyVal)) :=
  match replication with
  | PyVal.orderedMap entries =>
    match repl_loop entries [] [] with
    | Except.ok (rc, dcs) =>
      Except.ok (dictSet rc "data_centers" (PyVal.list dcs))
    | Except.error e => Except.error e
  | _ => Except.ok []

/-- The loop of `db.get_subconfig_settings`: for each entry, a "class"
value gets its namespace stripped (raising `AttributeError` on non-string
values), then every value passes through `convert_value`. -/
def subconfig_loop :
    List (String × PyVal) → List (String × PyVal) →
    Except PyExc (List (String × PyVal))
  | [], settings => Except.ok settings
  | (k, v) :: rest, settings =>
    if k = "class" then
      match pyClassName v with
      | Except.ok cls =>
        subconfig_loop rest
          (dictSet settings k (convert_value (PyVal.str cls)))
      | Except.error e => Except.error e
    else
      subconfig_loop rest (dictSet settings k (convert_value v))

/-- Embeds `db.get_subconfig_settings`: empty dict for inputs that are not
an `OrderedMapSerializedKey`, otherwise the converted entries. -/
def get_subconfig_settings (subconfig : PyVal) :
    Except PyExc (List (String × PyVal)) :=
  match subconfig with
  | PyVal.orderedMap entries => subconfig_loop entries []
  | _ => Except.ok []

/-- A row as produced by the driver's `ordered_dict_factory`: an ordered
mapping from column name to value. -/
abbrev Row := List (String × PyVal)

/-- Outcome of one call into the external Cassandra driver: either the
connect succeeded and `session.execute` returned rows, or
`cluster.connect` raised (before any session existed), or
`session.execute` raised (after the session was opened). -/
inductive DriverOutcome where
  | ok (rows : List Row)
  | connectError (e : PyExc)
  | execError (e : PyExc)

/-- The external driver, abstracted: a function of the hosts, port and
load-balancing policy handed to `cassandra.cluster.Cluster` and of the CQL
statement, returning the outcome of the call. -/
def ClusterEnv := PyVal → PyVal → PyVal → String → DriverOutcome

/-- Observable events of one `exec_query` call: the session resource being
opened and closed (the `with` block) and `logging.exception` calls. -/
inductive Event where
  | sessionOpened
  | sessionClosed
  | logged (e : PyExc)
deriving DecidableEq, Repr

/-- The hosts argument `exec_query` passes to the driver:
`connection.get("hosts", get_local_connection()["hosts"])`. -/
def conn_hosts (connection : List (String × PyVal)) : PyVal :=
  (dictLookup connection "hosts").getD
    ((dictLookup get_local_connection "hosts").getD PyVal.none)

/-- The port argument `exec_query` passes to the driver:
`connection.get("port", get_local_connection()["port"])`. -/
def conn_port (connection : List (String × PyVal)) : PyVal :=
  (dictLookup connection "port").getD
    ((dictLookup get_local_connection "port").getD PyVal.none)

/-- The load-balancing policy `exec_query` passes to the driver:
`connection.get("load_balancing_policy", ...)`. -/
def conn_lbp (connection : List (String × PyVal)) : PyVal :=
  (dictLookup connection "load_balancing_policy").getD
    ((dictLookup get_local_connection "load_balancing_policy").getD PyVal.none)

/-- The message of the generic exception `exec_query` raises when no host
is reachable. -/
def connectFailMsg : String :=
  "Failed to connect to Cassandra. See log for details."

/-- Embeds `db.exec_query`: builds the cluster from the connection dict
(each of "hosts", "port", "load_balancing_policy" defaulted from
`get_local_connection` when absent), runs the statement, and returns the
event trace together with the result.  A `NoHostAvailable` - whether from
`cluster.connect` or from `session.execute` - is logged and replaced by a
generic `Exception`; any other error is logged and re-raised unchanged.
The `with` block closes the session on both the normal and the exceptional
exit. -/
def exec_query (env : ClusterEnv) (connection : List (String × PyVal))
    (query_stmt : String) : List Event × Except PyExc (List Row) :=
  match env (conn_hosts connection) (conn_port connection)
      (conn_lbp connection) query_stmt with
  | DriverOutcome.ok rows =>
    ([Event.sessionOpened, Event.sessionClosed], Except.ok rows)
  | DriverOutcome.connectError e =>
    match e with
    | PyExc.noHostAvailable m =>
      ([Event.logged (PyExc.noHostAvailable m)],
       Except.error (PyExc.exception connectFailMsg))
    | _ => ([Event.logged e], Except.error e)
  | DriverOutcome.execError e =>
    match e with
    | PyExc.noHostAvailable m =>
      ([Event.sessionOpened, Event.sessionClosed,
        Event.logged (PyExc.noHostAvailable m)],
       Except.error (PyExc.exception connectFailMsg))
    | _ =>
      ([Event.sessionOpened, Event.sessionClosed, Event.logged e],
       Except.error e)

/-- The inner loop of `db.get_keyspace_configs`: builds one keyspace dict
from a row, renaming keys through `key_mapper` and normalizing the value
whenever the mapped key is "replication". -/
def build_ks : List (String × PyVal) → List (String × PyVal) →
    Except PyExc (List (String × PyVal))
  | [], ks => Except.ok ks
  | (k, v) :: rest, ks =>
    let nk := key_mapper k
    if nk = "replication" then
      match get_replication_settings v with
      | Except.ok d => build_ks rest (dictSet ks nk (PyVal.dict d))
      | Except.error e => Except.error e
    else
      build_ks rest (dictSet ks nk v)

/-- The row loop of `db.get_keyspace_configs`: for each row, look up
`row.get("keyspace_name")` and lower-case it (raising `AttributeError`
when it is missing or not a string, as `.lower()` does in Python);
skip system keyspaces; otherwise append the rebuilt keyspace dict. -/
def ks_rows_loop : List Row → List PyVal → Except PyExc (List PyVal)
  | [], acc => Except.ok acc
  | row :: rest, acc =>
    match pyLower (dictGet row "keyspace_name") with
    | Except.error e => Except.error e
    | Except.ok ks_name =>
      if ks_name = "system" ∨ strStartsWith ks_name "system_" then
        ks_rows_loop rest acc
      else
        match build_ks row [] with
        | Except.ok ks => ks_rows_loop rest (acc ++ [PyVal.dict ks])
        | Except.error e => Except.error e

/-- Embeds `db.get_keyspace_configs`: runs `SELECT * FROM keyspaces`,
processes the rows, and wraps the result as `{"keyspaces": [...]}`. -/
def get_keyspace_configs (env : ClusterEnv)
    (connection : List (String × PyVal)) :
    Except PyExc (List (String × PyVal)) :=
  match (exec_query env connection "SELECT * FROM keyspaces").2 with
  | Except.error e => Except.error e
  | Except.ok rows =>
    match ks_rows_loop rows [] with
    | Except.error e => Except.error e
    | Except.ok configs => Except.ok [("keyspaces", PyVal.list configs)]

/-- The per-field transformation of `db.get_table_configs` (the body of
its inner loop, after the `keyspace_name` skip): map-typed values are
normalized ("replication" through the replication normalizer, anything
else through the sub-config normalizer), a `SortedSet` under "flags"
becomes a list, the "id" value is stringified, and everything else passes
through unchanged. -/
def table_field (k : String) (v : PyVal) : Except PyExc PyVal :=
  if isOrderedMapB v then
    if k = "replication" then
      (get_replication_settings v).map PyVal.dict
    else
      (get_subconfig_settings v).map PyVal.dict
  else if k = "flags" then
    Except.ok (match v with
      | PyVal.sortedSet xs => PyVal.list xs
      | _ => v)
  else if k = "id" then
    Except.ok (PyVal.str (pyStr v))
  else
    Except.ok v

/-- The inner loop of `db.get_table_configs`: builds one table dict from a
row, dropping "keyspace_name" and storing each transformed value under the
`key_mapper`-renamed key. -/
def build_table : List (String × PyVal) → List (String × PyVal) →
    Except PyExc (List (String × PyVal))
  | [], t => Except.ok t
  | (k, v) :: rest, t =>
    if k = "keyspace_name" then
      build_table rest t
    else
      match table_field k v with
      | Except.ok v2 => build_table rest (dictSet t (key_mapper k) v2)
      | Except.error e => Except.error e

/-- The row loop of `db.get_table_configs`. -/
def tables_rows_loop : List Row → List PyVal → Except PyExc (List PyVal)
  | [], acc => Except.ok acc
  | row :: rest, acc =>
    match build_table row [] with
    | Except.ok t => tables_rows_loop rest (acc ++ [PyVal.dict t])
    | Except.error e => Except.error e

/-- The CQL statement `db.get_table_configs` formats: the keyspace name is
interpolated via `str.format`, i.e. through `str()`. -/
def table_query_stmt (keyspace_name : PyVal) : String :=
  "SELECT * FROM tables WHERE keyspace_name = '" ++ pyStr keyspace_name ++ "';"

/-- Embeds `db.get_table_configs`: runs the per-keyspace table query and
processes the rows. -/
def get_table_configs (env : ClusterEnv) (connection : List (String × PyVal))
    (keyspace_name : PyVal) : Except PyExc (List PyVal) :=
  match (exec_query env connection (table_query_stmt keyspace_name)).2 with
  | Except.error e => Except.error e
  | Except.ok rows => tables_rows_loop rows []

/-- The attach loop of `db.get_current_config`: for each keyspace dict,
`ks["tables"] = get_table_configs(connection, ks.get("name"))`.  Elements
that are not dicts would raise (`.get` on a non-dict); they never occur. -/
def attach_tables (env : ClusterEnv) (conn : List (String × PyVal)) :
    List PyVal → Except PyExc (List PyVal)
  | [] => Except.ok []
  | ks :: rest =>
    match ks with
    | PyVal.dict d =>
      match get_table_configs env conn (dictGet d "name") with
      | Except.error e => Except.error e
      | Except.ok ts =>
        match attach_tables env conn rest with
        | Except.error e => Except.error e
        | Except.ok rest2 =>
          Except.ok (PyVal.dict (dictSet d "tables" (PyVal.list ts)) :: rest2)
    | _ => Except.error (PyExc.attributeError "object has no attribute get")

/-- Embeds `db.get_current_config`: a missing (`None`) or falsy (empty
dict) connection argument is replaced by `get_local_connection()`; then
the keyspace configs are fetched and each keyspace dict gets its "tables"
entry attached in place.  (`keyspaces.get("keyspaces", [])` always finds
the list `get_keyspace_configs` stored, so the `[]` default is the
faithful value for the unreachable non-list case.) -/
def get_current_config (env : ClusterEnv)
    (connection : Option (List (String × PyVal))) :
    Except PyExc (List (String × PyVal)) :=
  let conn := match connection with
    | Option.none => get_local_connection
    | some d => if d.isEmpty then get_local_connection else d
  match get_keyspace_configs env conn with
  | Except.error e => Except.error e
  | Except.ok keyspaces =>
    let kss := match dictGet keyspaces "keyspaces" with
      | PyVal.list xs => xs
      | _ => []
    match attach_tables env conn kss with
    | Except.error e => Except.error e
    | Except.ok kss2 =>
      Except.ok (dictSet keyspaces "keyspaces" (PyVal.list kss2))

/-- Claim-side predicate (from the spec's words, for the filtering claim):
a keyspace row is kept exactly when its "keyspace_name" value is a string
whose lower-casing neither equals "system" nor starts with "system_". -/
def keepKeyspaceRow (row : Row) : Bool :=
  match dictGet row "keyspace_name" with
  | PyVal.str s =>
    if lowerStr s = "system" ∨ strStartsWith (lowerStr s) "system_" then false
    else true
  | _ => false

/-- The "name" entry of a produced keyspace config (claim-side accessor). -/
def configName (c : PyVal) : Option PyVal :=
  match c with
  | PyVal.dict d => dictLookup d "name"
  | _ => Option.none

/-- Claim-side predicate: a replication-map key that is neither "class"
nor "replication_factor", i.e. a data-center name. -/
def isDCKey (k : String) : Bool :=
  if k = "class" ∨ k = "replication_factor" then false else true

/-- The data-center record emitted for one replication-map entry. -/
def dc_entry (k : String) (v : PyVal) : PyVal :=
  PyVal.dict [("name", PyVal.str k), ("replication_factor", convert_value v)]

/-- Session open/close events (claim-side, for the resource-safety claim). -/
def isSessionEvent : Event → Bool
  | Event.sessionOpened => true
  | Event.sessionClosed => true
  | Event.logged _ => false

/-- A driver environment in which every call succeeds with no rows. -/
def envOk : ClusterEnv := fun _ _ _ _ => DriverOutcome.ok []

/-- A driver environment in which `cluster.connect` always raises
`NoHostAvailable`. -/
def envNoHost : ClusterEnv :=
  fun _ _ _ _ => DriverOutcome.connectError (PyExc.noHostAvailable "connection refused")

/-- A driver environment in which `session.execute` always raises a
non-connectivity error. -/
def envExecBoom : ClusterEnv :=
  fun _ _ _ _ => DriverOutcome.execError (PyExc.otherError "InvalidRequest" "bad query")

/-- Keyspace-catalog rows served by the demo driver environment: one
internal keyspace (to be filtered out) and one user keyspace. -/
def ksRowsDemo : List Row :=
  [[("keyspace_name", PyVal.str "system_auth")],
   [("keyspace_name", PyVal.str "My_App"),
    ("durable_writes", PyVal.bool true),
    ("replication",
     PyVal.orderedMap
       [("class", PyVal.str "org.apache.cassandra.locator.SimpleStrategy"),
        ("replication_factor", PyVal.str "3")])]]

/-- Table-catalog rows served by the demo driver environment. -/
def tblRowsDemo : List Row :=
  [[("keyspace_name", PyVal.str "My_App"),
    ("table_name", PyVal.str "t1"),
    ("id", PyVal.uuid "123e4567-e89b-12d3-a456-426614174000"),
    ("flags", PyVal.sortedSet [PyVal.str "compound"])]]

/-- A driver environment serving one user keyspace with one table (used to
exercise the config pipeline on concrete data). -/
def envDemo : ClusterEnv := fun _ _ _ stmt =>
  if stmt = "SELECT * FROM keyspaces" then DriverOutcome.ok ksRowsDemo
  else DriverOutcome.ok tblRowsDemo

lemma dictLookup_dictSet_self (d : List (String × PyVal)) (k : String)
    (v : PyVal) : dictLookup (dictSet d k v) k = some v := by
  induction d with
  | nil => simp [dictSet, dictLookup]
  | cons kv rest ih =>
    obtain ⟨k2, v2⟩ := kv
    by_cases h : k2 = k
    · simp [dictSet, dictLookup, h]
    · simp [dictSet, dictLookup, h, ih]

lemma dictLookup_dictSet_ne (d : List (String × PyVal)) (k k2 : String)
    (v : PyVal) (h : k ≠ k2) :
    dictLookup (dictSet d k v) k2 = dictLookup d k2 := by
  induction d with
  | nil => simp [dictSet, dictLookup, h]
  | cons kv rest ih =>
    obtain ⟨k3, v3⟩ := kv
    by_cases h3 : k3 = k
    · subst h3
      simp [dictSet, dictLookup, h]
    · simp [dictSet, dictLookup, h3, ih]

lemma dictLookup_of_not_mem (d : List (String × PyVal)) (k : String)
    (h : k ∉ d.map Prod.fst) : dictLookup d k = Option.none := by
  induction d with
  | nil => rfl
  | cons kv rest ih =>
    obtain ⟨k2, v2⟩ := kv
    simp only [List.map_cons, List.mem_cons] at h
    push_neg at h
    simp [dictLookup, Ne.symm h.1, ih h.2]

lemma dictLookup_some_mem (d : List (String × PyVal)) (k : String)
    (v : PyVal) (h : dictLookup d k = some v) : (k, v) ∈ d := by
  induction d with
  | nil => simp [dictLookup] at h
  | cons kv rest ih =>
    obtain ⟨k2, v2⟩ := kv
    by_cases h2 : k2 = k
    · subst h2
      simp [dictLookup] at h
      simp [h]
    · simp [dictLookup, h2] at h
      exact List.mem_cons_of_mem _ (ih h)

/-- C2: `convert_value` returns the parsed integer for strings that parse
as a Python int, the parsed float for strings that parse as a Python float
but not an int, the original string otherwise, and any non-string value
unchanged. -/
theorem convert_value_spec :
    (∀ s n, pyParseInt s = some n →
      convert_value (PyVal.str s) = PyVal.int n) ∧
    (∀ s f, pyParseInt s = Option.none → pyParseFloat s = some f →
      convert_value (PyVal.str s) = PyVal.float f) ∧
    (∀ s, pyParseInt s = Option.none → pyParseFloat s = Option.none →
      convert_value (PyVal.str s) = PyVal.str s) ∧
    (∀ v, (∀ s, v ≠ PyVal.str s) → convert_value v = v) := by
  refine ⟨?_, ?_, ?_, ?_⟩
  · intro s n h
    simp [convert_value, h]
  · intro s f h1 h2
    simp [convert_value, h1, h2]
  · intro s h1 h2
    simp [convert_value, h1, h2]
  · intro v h
    cases v with
    | str s => exact absurd rfl (h s)
    | int n => rfl
    | float f => rfl
    | bool b => rfl
    | none => rfl
    | list xs => rfl
    | orderedMap es => rfl
    | sortedSet xs => rfl
    | uuid s => rfl
    | dict es => rfl
    | roundRobinPolicy => rfl

/-- Witness for C2 at `"1"`, `"inf"` (a float-parsing string that is not
an int), `"test"` and a list value. -/
theorem convert_value_spec_witness :
    convert_value (PyVal.str "1") = PyVal.int 1 ∧
    convert_value (PyVal.str "inf") = PyVal.float (PyFloat.inf false) ∧
    convert_value (PyVal.str "test") = PyVal.str "test" ∧
    convert_value (PyVal.list [PyVal.int 1, PyVal.int 2]) =
      PyVal.list [PyVal.int 1, PyVal.int 2] :=
  ⟨convert_value_spec.1 "1" 1 (by decide),
   convert_value_spec.2.1 "inf" (PyFloat.inf false) (by decide) (by decide),
   convert_value_spec.2.2.1 "test" (by decide) (by decide),
   convert_value_spec.2.2.2 _ (fun s h => PyVal.noConfusion h)⟩

/-- C5 counterexample: the claim says a fresh default connection holds the
host list and the port "and nothing else", but `get_local_connection`
also carries a "load_balancing_policy" entry (a `RoundRobinPolicy`). -/
theorem get_local_connection_cex :
    ¬ (∀ kv ∈ get_local_connection, kv.1 = "hosts" ∨ kv.1 = "port") := by
  intro h
  have h2 := h ("load_balancing_policy", PyVal.roundRobinPolicy)
    (by simp [get_local_connection])
  revert h2
  decide

/-- C5 (amended): a fresh default connection dictionary has hosts
`["localhost"]`, port `9042`, a round-robin load-balancing policy, and
nothing else - in particular no auth provider and no TLS context. -/
theorem get_local_connection_defaults :
    get_local_connection =
      [("hosts", PyVal.list [PyVal.str "localhost"]),
       ("port", PyVal.int 9042),
       ("load_balancing_policy", PyVal.roundRobinPolicy)] ∧
    get_default_connection = get_local_connection ∧
    dictLookup get_local_connection "auth_provider" = Option.none ∧
    dictLookup get_local_connection "ssl_context" = Option.none :=
  ⟨rfl, rfl, rfl, rfl⟩

/-- C6: when the driver reports `NoHostAvailable` (from connect or from
execute), `exec_query` logs the underlying transport error and raises a
generic `Exception` whose message is the fixed string `connectFailMsg`,
independent of the underlying diagnostic; every other execution error is
logged and re-raised unchanged. -/
theorem exec_query_error_handling (env : ClusterEnv)
    (conn : List (String × PyVal)) (stmt : String) :
    (∀ m, env (conn_hosts conn) (conn_port conn) (conn_lbp conn) stmt =
        DriverOutcome.connectError (PyExc.noHostAvailable m) →
      exec_query env conn stmt =
        ([Event.logged (PyExc.noHostAvailable m)],
         Except.error (PyExc.exception connectFailMsg))) ∧
    (∀ m, env (conn_hosts conn) (conn_port conn) (conn_lbp conn) stmt =
        DriverOutcome.execError (PyExc.noHostAvailable m) →
      exec_query env conn stmt =
        ([Event.sessionOpened, Event.sessionClosed,
          Event.logged (PyExc.noHostAvailable m)],
         Except.error (PyExc.exception connectFailMsg))) ∧
    (∀ e, (∀ m, e ≠ PyExc.noHostAvailable m) →
      env (conn_hosts conn) (conn_port conn) (conn_lbp conn) stmt =
        DriverOutcome.connectError e →
      exec_query env conn stmt = ([Event.logged e], Except.error e)) ∧
    (∀ e, (∀ m, e ≠ PyExc.noHostAvailable m) →
      env (conn_hosts conn) (conn_port conn) (conn_lbp conn) stmt =
        DriverOutcome.execError e →
      exec_query env conn stmt =
        ([Event.sessionOpened, Event.sessionClosed, Event.logged e],
         Except.error e)) := by
  refine ⟨?_, ?_, ?_, ?_⟩
  · intro m h
    simp [exec_query, h]
  · intro m h
    simp [exec_query, h]
  · intro e hne h
    cases e with
    | noHostAvailable m => exact absurd rfl (hne m)
    | attributeError m => simp [exec_query, h]
    | exception m => simp [exec_query, h]
    | otherError n m => simp [exec_query, h]
  · intro e hne h
    cases e with
    | noHostAvailable m => exact absurd rfl (hne m)
    | attributeError m => simp [exec_query, h]
    | exception m => simp [exec_query, h]
    | otherError n m => simp [exec_query, h]

/-- Witness for C6: a connect-time `NoHostAvailable` and an unrelated
execute-time error, on a concrete environment and connection. -/
theorem exec_query_error_handling_witness :
    exec_query envNoHost [] "SELECT * FROM keyspaces" =
      ([Event.logged (PyExc.noHostAvailable "connection refused")],
       Except.error (PyExc.exception connectFailMsg)) ∧
    exec_query envExecBoom [] "SELECT * FROM keyspaces" =
      ([Event.sessionOpened, Event.sessionClosed,
        Event.logged (PyExc.otherError "InvalidRequest" "bad query")],
       Except.error (PyExc.otherError "InvalidRequest" "bad query")) :=
  ⟨(exec_query_error_handling envNoHost [] "SELECT * FROM keyspaces").1
      "connection refused" rfl,
   (exec_query_error_handling envExecBoom [] "SELECT * FROM keyspaces").2.2.2
      (PyExc.otherError "InvalidRequest" "bad query")
      (fun m h => PyExc.noConfusion h) rfl⟩

/-- C7: both normalizers return an empty dict, without raising, on every
input that is not an `OrderedMapSerializedKey`. -/
theorem normalizers_empty_on_non_map (v : PyVal)
    (h : isOrderedMapB v = false) :
    get_replication_settings v = Except.ok [] ∧
    get_subconfig_settings v = Except.ok [] := by
  cases v with
  | orderedMap es => exact absurd h (by simp [isOrderedMapB])
  | str s => exact ⟨rfl, rfl⟩
  | int n => exact ⟨rfl, rfl⟩
  | float f => exact ⟨rfl, rfl⟩
  | bool b => exact ⟨rfl, rfl⟩
  | none => exact ⟨rfl, rfl⟩
  | list xs => exact ⟨rfl, rfl⟩
  | sortedSet xs => exact ⟨rfl, rfl⟩
  | uuid s => exact ⟨rfl, rfl⟩
  | dict es => exact ⟨rfl, rfl⟩
  | roundRobinPolicy => exact ⟨rfl, rfl⟩

/-- Witness for C7 at the non-map value `None`. -/
theorem normalizers_empty_on_non_map_witness :
    get_replication_settings PyVal.none = Except.ok [] ∧
    get_subconfig_settings PyVal.none = Except.ok [] :=
  normalizers_empty_on_non_map PyVal.none rfl

/-- C9: on every execution of `exec_query` - rows returned, connect
failure, or execute failure - the session opened by the call is closed
before control returns: the event trace has as many closes as opens, and
its session events are either none (connect never succeeded) or exactly
an open followed by a close. -/
theorem exec_query_session_balanced (env : ClusterEnv)
    (conn : List (String × PyVal)) (stmt : String) :
    ((exec_query env conn stmt).1.count Event.sessionOpened =
      (exec_query env conn stmt).1.count Event.sessionClosed) ∧
    ((exec_query env conn stmt).1.filter isSessionEvent = [] ∨
      (exec_query env conn stmt).1.filter isSessionEvent =
        [Event.sessionOpened, Event.sessionClosed]) := by
  cases h : env (conn_hosts conn) (conn_port conn) (conn_lbp conn) stmt with
  | ok rows =>
    unfold exec_query
    rw [h]
    exact ⟨rfl, Or.inr rfl⟩
  | connectError e =>
    unfold exec_query
    rw [h]
    cases e with
    | noHostAvailable m => exact ⟨rfl, Or.inl rfl⟩
    | attributeError m => exact ⟨rfl, Or.inl rfl⟩
    | exception m => exact ⟨rfl, Or.inl rfl⟩
    | otherError n m => exact ⟨rfl, Or.inl rfl⟩
  | execError e =>
    unfold exec_query
    rw [h]
    cases e with
    | noHostAvailable m => exact ⟨rfl, Or.inr rfl⟩
    | attributeError m => exact ⟨rfl, Or.inr rfl⟩
    | exception m => exact ⟨rfl, Or.inr rfl⟩
    | otherError n m => exact ⟨rfl, Or.inr rfl⟩

/-- C10: a missing or falsy connection argument to `get_current_config` is
replaced by the local defaults, and each of "hosts", "port" and
"load_balancing_policy" missing from the connection dict handed to
`exec_query` is individually filled in from `get_local_connection`
(`["localhost"]`, `9042`, round-robin) - behaving exactly as if the
default had been passed explicitly - rather than causing an error. -/
theorem connection_defaulting :
    (∀ env : ClusterEnv, get_current_config env Option.none =
      get_current_config env (some get_local_connection)) ∧
    (∀ env : ClusterEnv, get_current_config env (some []) =
      get_current_config env (some get_local_connection)) ∧
    (∀ conn : List (String × PyVal), "hosts" ∉ conn.map Prod.fst →
      conn_hosts conn = PyVal.list [PyVal.str "localhost"]) ∧
    (∀ conn : List (String × PyVal), "port" ∉ conn.map Prod.fst →
      conn_port conn = PyVal.int 9042) ∧
    (∀ conn : List (String × PyVal), "load_balancing_policy" ∉ conn.map Prod.fst →
      conn_lbp conn = PyVal.roundRobinPolicy) ∧
    (∀ (env : ClusterEnv) (conn : List (String × PyVal)) (stmt : String),
      "hosts" ∉ conn.map Prod.fst →
      exec_query env conn stmt =
        exec_query env (dictSet conn "hosts" (PyVal.list [PyVal.str "localhost"])) stmt) ∧
    (∀ (env : ClusterEnv) (conn : List (String × PyVal)) (stmt : String),
      "port" ∉ conn.map Prod.fst →
      exec_query env conn stmt =
        exec_query env (dictSet conn "port" (PyVal.int 9042)) stmt) ∧
    (∀ (env : ClusterEnv) (conn : List (String × PyVal)) (stmt : String),
      "load_balancing_policy" ∉ conn.map Prod.fst →
      exec_query env conn stmt =
        exec_query env (dictSet conn "load_balancing_policy" PyVal.roundRobinPolicy) stmt) := by
  refine ⟨fun env => rfl, fun env => rfl, ?_, ?_, ?_, ?_, ?_, ?_⟩
  · intro conn h
    unfold conn_hosts
    rw [dictLookup_of_not_mem conn "hosts" h]
    rfl
  · intro conn h
    unfold conn_port
    rw [dictLookup_of_not_mem conn "port" h]
    rfl
  · intro conn h
    unfold conn_lbp
    rw [dictLookup_of_not_mem conn "load_balancing_policy" h]
    rfl
  · intro env conn stmt h
    have h1 : conn_hosts (dictSet conn "hosts" (PyVal.list [PyVal.str "localhost"])) =
        conn_hosts conn := by
      unfold conn_hosts
      rw [dictLookup_dictSet_self, dictLookup_of_not_mem conn "hosts" h]
      rfl
    have h2 : conn_port (dictSet conn "hosts" (PyVal.list [PyVal.str "localhost"])) =
        conn_port conn := by
      unfold conn_port
      rw [dictLookup_dictSet_ne _ _ _ _ (by decide)]
    have h3 : conn_lbp (dictSet conn "hosts" (PyVal.list [PyVal.str "localhost"])) =
        conn_lbp conn := by
      unfold conn_lbp
      rw [dictLookup_dictSet_ne _ _ _ _ (by decide)]
    unfold exec_query
    rw [h1, h2, h3]
  · intro env conn stmt h
    have h1 : conn_hosts (dictSet conn "port" (PyVal.int 9042)) = conn_hosts conn := by
      unfold conn_hosts
      rw [dictLookup_dictSet_ne _ _ _ _ (by decide)]
    have h2 : conn_port (dictSet conn "port" (PyVal.int 9042)) = conn_port conn := by
      unfold conn_port
      rw [dictLookup_dictSet_self, dictLookup_of_not_mem conn "port" h]
      rfl
    have h3 : conn_lbp (dictSet conn "port" (PyVal.int 9042)) = conn_lbp conn := by
      unfold conn_lbp
      rw [dictLookup_dictSet_ne _ _ _ _ (by decide)]
    unfold exec_query
    rw [h1, h2, h3]
  · intro env conn stmt h
    have h1 : conn_hosts (dictSet conn "load_balancing_policy" PyVal.roundRobinPolicy) =
        conn_hosts conn := by
      unfold conn_hosts
      rw [dictLookup_dictSet_ne _ _ _ _ (by decide)]
    have h2 : conn_port (dictSet conn "load_balancing_policy" PyVal.roundRobinPolicy) =
        conn_port conn := by
      unfold conn_port
      rw [dictLookup_dictSet_ne _ _ _ _ (by decide)]
    have h3 : conn_lbp (dictSet conn "load_balancing_policy" PyVal.roundRobinPolicy) =
        conn_lbp conn := by
      unfold conn_lbp
      rw [dictLookup_dictSet_self, dictLookup_of_not_mem conn "load_balancing_policy" h]
      rfl
    unfold exec_query
    rw [h1, h2, h3]

/-- Witness for C10 at concrete connection dictionaries. -/
theorem connection_defaulting_witness :
    get_current_config envOk Option.none =
      get_current_config envOk (some get_local_connection) ∧
    conn_hosts [("port", PyVal.int 1)] = PyVal.list [PyVal.str "localhost"] ∧
    conn_port [] = PyVal.int 9042 ∧
    conn_lbp [] = PyVal.roundRobinPolicy ∧
    exec_query envOk [] "SELECT * FROM keyspaces" =
      exec_query envOk (dictSet [] "hosts" (PyVal.list [PyVal.str "localhost"]))
        "SELECT * FROM keyspaces" :=
  ⟨connection_defaulting.1 envOk,
   connection_defaulting.2.2.1 [("port", PyVal.int 1)] (by decide),
   connection_defaulting.2.2.2.1 [] (by decide),
   connection_defaulting.2.2.2.2.1 [] (by decide),
   connection_defaulting.2.2.2.2.2.1 envOk [] "SELECT * FROM keyspaces" (by decide)⟩

lemma repl_loop_dcs (entries : List (String × PyVal)) :
    ∀ rc dcs rc2 dcs2, repl_loop entries rc dcs = Except.ok (rc2, dcs2) →
    dcs2 = dcs ++ (entries.filter (fun kv => isDCKey kv.1)).map
      (fun kv => dc_entry kv.1 kv.2) := by
  induction entries with
  | nil =>
    intro rc dcs rc2 dcs2 h
    simp [repl_loop] at h
    simp [h.2]
  | cons kv rest ih =>
    obtain ⟨k0, v0⟩ := kv
    intro rc dcs rc2 dcs2 h
    by_cases hc : k0 = "class"
    · subst hc
      simp only [repl_loop, if_pos rfl] at h
      cases hv : pyClassName v0 with
      | ok cls =>
        rw [hv] at h
        have := ih _ _ _ _ h
        simpa [List.filter_cons, isDCKey] using this
      | error e =>
        rw [hv] at h
        exact absurd h (by simp)
    · by_cases hrf : k0 = "replication_factor"
      · subst hrf
        simp only [repl_loop, if_neg hc, if_pos rfl] at h
        have := ih _ _ _ _ h
        simpa [List.filter_cons, isDCKey] using this
      · simp only [repl_loop, if_neg hc, if_neg hrf] at h
        have := ih _ _ _ _ h
        simp [List.filter_cons, isDCKey, hc, hrf, this, dc_entry]

lemma repl_loop_rc_not_mem (entries : List (String × PyVal)) :
    ∀ rc dcs rc2 dcs2 (k : String),
    repl_loop entries rc dcs = Except.ok (rc2, dcs2) →
    k ∉ entries.map Prod.fst →
    dictLookup rc2 k = dictLookup rc k := by
  induction entries with
  | nil =>
    intro rc dcs rc2 dcs2 k h _
    simp [repl_loop] at h
    simp [h.1]
  | cons kv rest ih =>
    obtain ⟨k0, v0⟩ := kv
    intro rc dcs rc2 dcs2 k h hk
    simp only [List.map_cons, List.mem_cons] at hk
    push_neg at hk
    obtain ⟨hk0, hkrest⟩ := hk
    by_cases hc : k0 = "class"
    · subst hc
      simp only [repl_loop, if_pos rfl] at h
      cases hv : pyClassName v0 with
      | ok cls =>
        rw [hv] at h
        rw [ih _ _ _ _ _ h hkrest]
        exact dictLookup_dictSet_ne _ _ _ _ (Ne.symm hk0)
      | error e =>
        rw [hv] at h
        exact absurd h (by simp)
    · by_cases hrf : k0 = "replication_factor"
      · subst hrf
        simp only [repl_loop, if_neg hc, if_pos rfl] at h
        rw [ih _ _ _ _ _ h hkrest]
        exact dictLookup_dictSet_ne _ _ _ _ (Ne.symm hk0)
      · simp only [repl_loop, if_neg hc, if_neg hrf] at h
        exact ih _ _ _ _ _ h hkrest

lemma repl_loop_rc_class (entries : List (String × PyVal)) :
    ∀ rc dcs rc2 dcs2 (v : PyVal),
    repl_loop entries rc dcs = Except.ok (rc2, dcs2) →
    (entries.map Prod.fst).Nodup →
    ("class", v) ∈ entries →
    ∃ s, v = PyVal.str s ∧
      dictLookup rc2 "class" = some (PyVal.str (get_class_name s)) := by
  induction entries with
  | nil =>
    intro rc dcs rc2 dcs2 v _ _ hmem
    simp at hmem
  | cons kv rest ih =>
    obtain ⟨k0, v0⟩ := kv
    intro rc dcs rc2 dcs2 v h hnd hmem
    simp only [List.map_cons, List.nodup_cons] at hnd
    obtain ⟨hk0nin, hndrest⟩ := hnd
    rcases List.mem_cons.1 hmem with heq | hmemrest
    · injection heq with hk0 hv0
      subst hk0
      subst hv0
      simp only [repl_loop, if_pos rfl] at h
      cases hv : pyClassName v with
      | ok cls =>
        rw [hv] at h
        cases v with
        | str s =>
          refine ⟨s, rfl, ?_⟩
          have hcls : cls = get_class_name s := by
            simpa [pyClassName] using hv.symm
          rw [repl_loop_rc_not_mem rest _ _ _ _ _ h hk0nin,
            dictLookup_dictSet_self, hcls]
        | int n => simp [pyClassName] at hv
        | float f => simp [pyClassName] at hv
        | bool b => simp [pyClassName] at hv
        | none => simp [pyClassName] at hv
        | list xs => simp [pyClassName] at hv
        | orderedMap es => simp [pyClassName] at hv
        | sortedSet xs => simp [pyClassName] at hv
        | uuid s => simp [pyClassName] at hv
        | dict es => simp [pyClassName] at hv
        | roundRobinPolicy => simp [pyClassName] at hv
      | error e =>
        rw [hv] at h
        exact absurd h (by simp)
    · have hk0 : k0 ≠ "class" := by
        intro hk
        exact hk0nin (hk ▸ List.mem_map_of_mem Prod.fst hmemrest)
      by_cases hrf : k0 = "replication_factor"
      · subst hrf
        simp only [repl_loop, if_neg hk0, if_pos rfl] at h
        exact ih _ _ _ _ _ h hndrest hmemrest
      · simp only [repl_loop, if_neg hk0, if_neg hrf] at h
        exact ih _ _ _ _ _ h hndrest hmemrest

lemma repl_loop_rc_rf (entries : List (String × PyVal)) :
    ∀ rc dcs rc2 dcs2 (v : PyVal),
    repl_loop entries rc dcs = Except.ok (rc2, dcs2) →
    (entries.map Prod.fst).Nodup →
    ("replication_factor", v) ∈ entries →
    dictLookup rc2 "replication_factor" = some (convert_value v) := by
  induction entries with
  | nil =>
    intro rc dcs rc2 dcs2 v _ _ hmem
    simp at hmem
  | cons kv rest ih =>
    obtain ⟨k0, v0⟩ := kv
    intro rc dcs rc2 dcs2 v h hnd hmem
    simp only [List.map_cons, List.nodup_cons] at hnd
    obtain ⟨hk0nin, hndrest⟩ := hnd
    rcases List.mem_cons.1 hmem with heq | hmemrest
    · injection heq with hk0 hv0
      subst hk0
      subst hv0
      simp only [repl_loop, if_neg (by decide : ¬("replication_factor" = "class")),
        if_pos rfl] at h
      rw [repl_loop_rc_not_mem rest _ _ _ _ _ h hk0nin, dictLookup_dictSet_self]
    · have hk0 : k0 ≠ "replication_factor" := by
        intro hk
        exact hk0nin (hk ▸ List.mem_map_of_mem Prod.fst hmemrest)
      by_cases hc : k0 = "class"
      · subst hc
        simp only [repl_loop, if_pos rfl] at h
        cases hv : pyClassName v0 with
        | ok cls =>
          rw [hv] at h
          exact ih _ _ _ _ _ h hndrest hmemrest
        | error e =>
          rw [hv] at h
          exact absurd h (by simp)
      · simp only [repl_loop, if_neg hc, if_neg hk0] at h
        exact ih _ _ _ _ _ h hndrest hmemrest

/-- C1 counterexample: on the recognized-map input with no entries, the
output of the replication normalizer is `{"data_centers": []}` and has no
"class" key, refuting the claim that the output always contains "class". -/
theorem get_replication_settings_no_class_cex :
    get_replication_settings (PyVal.orderedMap []) =
      Except.ok [("data_centers", PyVal.list [])] ∧
    dictLookup [("data_centers", PyVal.list [])] "class" = Option.none :=
  ⟨rfl, rfl⟩

/-- C1 (amended): for every `OrderedMapSerializedKey` input (keys unique,
as in every real mapping) on which the normalizer succeeds, the output
always contains "data_centers", whose value lists `{name, replication_factor:
coerced value}` records for exactly the keys other than "class" and
"replication_factor", in input iteration order; it contains
"replication_factor" (the coerced input value) iff the input had that key;
and it contains "class" iff the input had a "class" key, in which case the
input value is a string and the output value is that string with
everything up to and including the last "." removed. -/
theorem get_replication_settings_spec (entries : List (String × PyVal))
    (out : List (String × PyVal))
    (hnd : (entries.map Prod.fst).Nodup)
    (h : get_replication_settings (PyVal.orderedMap entries) = Except.ok out) :
    (dictLookup out "data_centers" = some (PyVal.list
      ((entries.filter (fun kv => isDCKey kv.1)).map
        (fun kv => dc_entry kv.1 kv.2)))) ∧
    (∀ v, ("replication_factor", v) ∈ entries →
      dictLookup out "replication_factor" = some (convert_value v)) ∧
    ("replication_factor" ∉ entries.map Prod.fst →
      dictLookup out "replication_factor" = Option.none) ∧
    (∀ v, ("class", v) ∈ entries →
      ∃ s, v = PyVal.str s ∧
        dictLookup out "class" = some (PyVal.str (get_class_name s))) ∧
    ("class" ∉ entries.map Prod.fst →
      dictLookup out "class" = Option.none) := by
  simp only [get_replication_settings] at h
  cases hr : repl_loop entries [] [] with
  | error e =>
    rw [hr] at h
    exact absurd h (by simp)
  | ok p =>
    obtain ⟨rc, dcs⟩ := p
    rw [hr] at h
    have hout : out = dictSet rc "data_centers" (PyVal.list dcs) := by
      simpa using h.symm
    subst hout
    refine ⟨?_, ?_, ?_, ?_, ?_⟩
    · rw [dictLookup_dictSet_self]
      have := repl_loop_dcs entries _ _ _ _ hr
      simp [this]
    · intro v hmem
      rw [dictLookup_dictSet_ne _ _ _ _ (by decide)]
      exact repl_loop_rc_rf entries _ _ _ _ _ hr hnd hmem
    · intro hnin
      rw [dictLookup_dictSet_ne _ _ _ _ (by decide)]
      rw [repl_loop_rc_not_mem entries _ _ _ _ _ hr hnin]
      rfl
    · intro v hmem
      obtain ⟨s, hs, hl⟩ := repl_loop_rc_class entries _ _ _ _ _ hr hnd hmem
      refine ⟨s, hs, ?_⟩
      rw [dictLookup_dictSet_ne _ _ _ _ (by decide)]
      exact hl
    · intro hnin
      rw [dictLookup_dictSet_ne _ _ _ _ (by decide)]
      rw [repl_loop_rc_not_mem entries _ _ _ _ _ hr hnin]
      rfl

/-- Witness for C1 at a concrete replication map with a namespaced class,
an explicit replication factor and one data center. -/
theorem get_replication_settings_spec_witness :
    (dictLookup [("class", PyVal.str "SimpleStrategy"),
        ("replication_factor", PyVal.int 3),
        ("data_centers", PyVal.list
          [PyVal.dict [("name", PyVal.str "dc1"),
                       ("replication_factor", PyVal.int 2)]])] "data_centers" =
      some (PyVal.list
        (([(("class" : String), PyVal.str "org.apache.cassandra.locator.SimpleStrategy"),
           (("replication_factor" : String), PyVal.str "3"),
           (("dc1" : String), PyVal.str "2")].filter
             (fun kv => isDCKey kv.1)).map (fun kv => dc_entry kv.1 kv.2)))) ∧
    (∃ s, PyVal.str "org.apache.cassandra.locator.SimpleStrategy" = PyVal.str s ∧
      dictLookup [("class", PyVal.str "SimpleStrategy"),
        ("replication_factor", PyVal.int 3),
        ("data_centers", PyVal.list
          [PyVal.dict [("name", PyVal.str "dc1"),
                       ("replication_factor", PyVal.int 2)]])] "class" =
        some (PyVal.str (get_class_name s))) := by
  have h := get_replication_settings_spec
    [("class", PyVal.str "org.apache.cassandra.locator.SimpleStrategy"),
     ("replication_factor", PyVal.str "3"),
     ("dc1", PyVal.str "2")]
    [("class", PyVal.str "SimpleStrategy"),
     ("replication_factor", PyVal.int 3),
     ("data_centers", PyVal.list
       [PyVal.dict [("name", PyVal.str "dc1"),
                    ("replication_factor", PyVal.int 2)]])]
    (by decide) rfl
  exact ⟨h.1, h.2.2.2.1 _ (List.Mem.head _)⟩

lemma pyLower_ok (v : PyVal) (l : String) (h : pyLower v = Except.ok l) :
    ∃ s, v = PyVal.str s ∧ l = lowerStr s := by
  cases v with
  | str s =>
    refine ⟨s, rfl, ?_⟩
    simpa [pyLower] using h.symm
  | int n => simp [pyLower] at h
  | float f => simp [pyLower] at h
  | bool b => simp [pyLower] at h
  | none => simp [pyLower] at h
  | list xs => simp [pyLower] at h
  | orderedMap es => simp [pyLower] at h
  | sortedSet xs => simp [pyLower] at h
  | uuid s => simp [pyLower] at h
  | dict es => simp [pyLower] at h
  | roundRobinPolicy => simp [pyLower] at h

lemma dictGet_eq_str (d : List (String × PyVal)) (k : String) (s : String)
    (h : dictGet d k = PyVal.str s) : dictLookup d k = some (PyVal.str s) := by
  unfold dictGet at h
  cases hl : dictLookup d k with
  | none => rw [hl] at h; simp at h
  | some v => rw [hl] at h; simp_all

lemma build_ks_lookup_stable (row : List (String × PyVal)) :
    ∀ ks t (nk0 : String), build_ks row ks = Except.ok t →
    (∀ kv ∈ row, key_mapper kv.1 ≠ nk0) →
    dictLookup t nk0 = dictLookup ks nk0 := by
  induction row with
  | nil =>
    intro ks t nk0 h _
    simp [build_ks] at h
    rw [h]
  | cons kv rest ih =>
    obtain ⟨k0, v0⟩ := kv
    intro ks t nk0 h hne
    have hne0 : key_mapper k0 ≠ nk0 := hne (k0, v0) (List.Mem.head _)
    have hnerest : ∀ kv ∈ rest, key_mapper kv.1 ≠ nk0 :=
      fun kv hkv => hne kv (List.Mem.tail _ hkv)
    by_cases hrepl : key_mapper k0 = "replication"
    · simp only [build_ks, hrepl, if_pos rfl] at h
      cases hg : get_replication_settings v0 with
      | ok d =>
        rw [hg] at h
        rw [ih _ _ _ h hnerest]
        exact dictLookup_dictSet_ne _ _ _ _ (hrepl ▸ hne0)
      | error e =>
        rw [hg] at h
        exact absurd h (by simp)
    · simp only [build_ks, hrepl, if_neg hrepl] at h
      rw [ih _ _ _ h hnerest, dictLookup_dictSet_ne _ _ _ _ hne0]

lemma build_ks_lookup_mem (row : List (String × PyVal)) :
    ∀ ks t (k : String) (v : PyVal), build_ks row ks = Except.ok t →
    (row.map (fun kv => key_mapper kv.1)).Nodup →
    (k, v) ∈ row → key_mapper k ≠ "replication" →
    dictLookup t (key_mapper k) = some v := by
  induction row with
  | nil =>
    intro ks t k v _ _ hmem _
    simp at hmem
  | cons kv rest ih =>
    obtain ⟨k0, v0⟩ := kv
    intro ks t k v h hnd hmem hkrepl
    simp only [List.map_cons, List.nodup_cons] at hnd
    obtain ⟨hk0nin, hndrest⟩ := hnd
    rcases List.mem_cons.1 hmem with heq | hmemrest
    · injection heq with hk0 hv0
      subst hk0
      subst hv0
      simp only [build_ks, if_neg hkrepl] at h
      have hst : ∀ kv ∈ rest, key_mapper kv.1 ≠ key_mapper k := by
        intro kv hkv hkm
        exact hk0nin (hkm ▸ List.mem_map_of_mem (fun kv => key_mapper kv.1) hkv)
      rw [build_ks_lookup_stable rest _ _ _ h hst, dictLookup_dictSet_self]
    · by_cases hrepl : key_mapper k0 = "replication"
      · simp only [build_ks, hrepl, if_pos rfl] at h
        cases hg : get_replication_settings v0 with
        | ok d =>
          rw [hg] at h
          exact ih _ _ _ _ h hndrest hmemrest hkrepl
        | error e =>
          rw [hg] at h
          exact absurd h (by simp)
      · simp only [build_ks, if_neg hrepl] at h
        exact ih _ _ _ _ h hndrest hmemrest hkrepl

lemma ks_rows_loop_spec (rows : List Row) :
    ∀ acc configs, ks_rows_loop rows acc = Except.ok configs →
    (∀ row ∈ rows, (row.map (fun kv => key_mapper kv.1)).Nodup) →
    (configs.map configName = acc.map configName ++
      (rows.filter keepKeyspaceRow).map (fun r => dictLookup r "keyspace_name")) ∧
    (∀ c ∈ configs, c ∈ acc ∨ ∃ s, configName c = some (PyVal.str s) ∧
      lowerStr s ≠ "system" ∧ strStartsWith (lowerStr s) "system_" = false) := by
  induction rows with
  | nil =>
    intro acc configs h _
    simp [ks_rows_loop] at h
    subst h
    exact ⟨by simp, fun c hc => Or.inl hc⟩
  | cons row rest ih =>
    intro acc configs h hnd
    have hndrow := hnd row (List.Mem.head _)
    have hndrest : ∀ r ∈ rest, (r.map (fun kv => key_mapper kv.1)).Nodup :=
      fun r hr => hnd r (List.Mem.tail _ hr)
    simp only [ks_rows_loop] at h
    cases hl : pyLower (dictGet row "keyspace_name") with
    | error e =>
      rw [hl] at h
      exact absurd h (by simp)
    | ok ks_name =>
      obtain ⟨s, hsv, hsl⟩ := pyLower_ok _ _ hl
      subst hsl
      simp only [hl] at h
      by_cases hcond : lowerStr s = "system" ∨ strStartsWith (lowerStr s) "system_" = true
      · rw [if_pos hcond] at h
        have hres := ih acc configs h hndrest
        have hkeep : keepKeyspaceRow row = false := by
          simp only [keepKeyspaceRow, hsv]
          rw [if_pos hcond]
        refine ⟨?_, hres.2⟩
        rw [hres.1, List.filter_cons, hkeep]
        simp
      · rw [if_neg hcond] at h
        cases hb : build_ks row [] with
        | error e =>
          rw [hb] at h
          exact absurd h (by simp)
        | ok ks =>
          rw [hb] at h
          have hres := ih (acc ++ [PyVal.dict ks]) configs h hndrest
          have hlk : dictLookup row "keyspace_name" = some (PyVal.str s) :=
            dictGet_eq_str _ _ _ hsv
          have hmem := dictLookup_some_mem _ _ _ hlk
          have hname : dictLookup ks "name" = some (PyVal.str s) := by
            have hm := build_ks_lookup_mem row _ _ "keyspace_name" (PyVal.str s)
              hb hndrow hmem (by decide)
            simpa [key_mapper] using hm
          have hkeep : keepKeyspaceRow row = true := by
            simp only [keepKeyspaceRow, hsv]
            rw [if_neg hcond]
          push_neg at hcond
          obtain ⟨hsys, hpre⟩ := hcond
          refine ⟨?_, ?_⟩
          · rw [hres.1, List.filter_cons, hkeep]
            simp [configName, hname, hlk]
          · intro c hc
            rcases hres.2 c hc with hacc | hP
            · rcases List.mem_append.1 hacc with hacc2 | hone
              · exact Or.inl hacc2
              · refine Or.inr ⟨s, ?_, hsys, by simpa using hpre⟩
                have hco : c = PyVal.dict ks := by simpa using hone
                rw [hco]
                exact hname
            · exact Or.inr hP

/-- C3: `get_keyspace_configs` keeps exactly the catalog rows whose
lower-cased keyspace name neither equals "system" nor starts with
"system_" (the produced configs' "name" values are, in order, the
original-case "keyspace_name" values of exactly the kept rows), and every
produced config's name lower-cases to something that is neither "system"
nor "system_"-prefixed.  (The hypothesis that each row's `key_mapper`-image
keys are distinct holds for every real catalog row, whose column names are
distinct and do not include "name" or "table_name".) -/
theorem get_keyspace_configs_filter (env : ClusterEnv)
    (conn : List (String × PyVal)) (rows : List Row)
    (out : List (String × PyVal))
    (hq : (exec_query env conn "SELECT * FROM keyspaces").2 = Except.ok rows)
    (hnd : ∀ row ∈ rows, (row.map (fun kv => key_mapper kv.1)).Nodup)
    (h : get_keyspace_configs env conn = Except.ok out) :
    ∃ configs : List PyVal,
      out = [("keyspaces", PyVal.list configs)] ∧
      configs.map configName =
        (rows.filter keepKeyspaceRow).map (fun r => dictLookup r "keyspace_name") ∧
      ∀ c ∈ configs, ∃ s, configName c = some (PyVal.str s) ∧
        lowerStr s ≠ "system" ∧ strStartsWith (lowerStr s) "system_" = false := by
  unfold get_keyspace_configs at h
  simp only [hq] at h
  cases hk : ks_rows_loop rows [] with
  | error e =>
    rw [hk] at h
    exact absurd h (by simp)
  | ok configs =>
    rw [hk] at h
    have hspec := ks_rows_loop_spec rows [] configs hk hnd
    refine ⟨configs, by simpa using h.symm, by simpa using hspec.1, ?_⟩
    intro c hc
    rcases hspec.2 c hc with habs | hP
    · simp at habs
    · exact hP

/-- Witness for C3 on the demo environment: "system_auth" is filtered out,
"My_App" is kept with its original casing. -/
theorem get_keyspace_configs_filter_witness :
    ∃ configs : List PyVal,
      ([("keyspaces", PyVal.list
        [PyVal.dict
          [("name", PyVal.str "My_App"),
           ("durable_writes", PyVal.bool true),
           ("replication", PyVal.dict
             [("class", PyVal.str "SimpleStrategy"),
              ("replication_factor", PyVal.int 3),
              ("data_centers", PyVal.list [])])]])] :
        List (String × PyVal)) = [("keyspaces", PyVal.list configs)] ∧
      configs.map configName =
        (ksRowsDemo.filter keepKeyspaceRow).map
          (fun r => dictLookup r "keyspace_name") ∧
      ∀ c ∈ configs, ∃ s, configName c = some (PyVal.str s) ∧
        lowerStr s ≠ "system" ∧ strStartsWith (lowerStr s) "system_" = false :=
  get_keyspace_configs_filter envDemo get_local_connection ksRowsDemo _
    rfl (by decide) rfl

lemma key_mapper_eq_ks (k : String) (hk : key_mapper k = "keyspace_name") :
    k = "keyspace_name" := by
  by_cases h1 : k = "keyspace_name"
  · exact h1
  · by_cases h2 : k = "table_name"
    · simp [key_mapper, h1, h2] at hk
    · simp [key_mapper, h1, h2] at hk

lemma build_table_stable (row : List (String × PyVal)) :
    ∀ tAcc t (nk0 : String), build_table row tAcc = Except.ok t →
    (∀ kv ∈ row, kv.1 ≠ "keyspace_name" → key_mapper kv.1 ≠ nk0) →
    dictLookup t nk0 = dictLookup tAcc nk0 := by
  induction row with
  | nil =>
    intro tAcc t nk0 h _
    simp [build_table] at h
    rw [h]
  | cons kv rest ih =>
    obtain ⟨k0, v0⟩ := kv
    intro tAcc t nk0 h hne
    have hnerest : ∀ kv ∈ rest, kv.1 ≠ "keyspace_name" → key_mapper kv.1 ≠ nk0 :=
      fun kv hkv => hne kv (List.Mem.tail _ hkv)
    by_cases hks : k0 = "keyspace_name"
    · simp only [build_table, if_pos hks] at h
      exact ih _ _ _ h hnerest
    · simp only [build_table, if_neg hks] at h
      cases hf : table_field k0 v0 with
      | ok v2 =>
        rw [hf] at h
        rw [ih _ _ _ h hnerest]
        exact dictLookup_dictSet_ne _ _ _ _ (hne (k0, v0) (List.Mem.head _) hks)
      | error e =>
        rw [hf] at h
        exact absurd h (by simp)

lemma build_table_mem (row : List (String × PyVal)) :
    ∀ tAcc t (k : String) (v v2 : PyVal), build_table row tAcc = Except.ok t →
    ((row.filter (fun kv => !(kv.1 == "keyspace_name"))).map
      (fun kv => key_mapper kv.1)).Nodup →
    (k, v) ∈ row → k ≠ "keyspace_name" → table_field k v = Except.ok v2 →
    dictLookup t (key_mapper k) = some v2 := by
  induction row with
  | nil =>
    intro tAcc t k v v2 _ _ hmem _ _
    simp at hmem
  | cons kv rest ih =>
    obtain ⟨k0, v0⟩ := kv
    intro tAcc t k v v2 h hnd hmem hks hf
    rcases List.mem_cons.1 hmem with heq | hmemrest
    · injection heq with hk0 hv0
      subst hk0
      subst hv0
      simp only [build_table, if_neg hks] at h
      rw [hf] at h
      rw [List.filter_cons,
        if_pos (show (!(k == "keyspace_name")) = true by simp [hks]),
        List.map_cons, List.nodup_cons] at hnd
      have hst : ∀ kv ∈ rest, kv.1 ≠ "keyspace_name" →
          key_mapper kv.1 ≠ key_mapper k := by
        intro kv hkv hkvks hkm
        apply hnd.1
        rw [← hkm]
        have hkvf : kv ∈ rest.filter (fun kv2 => !(kv2.1 == "keyspace_name")) :=
          List.mem_filter.2 ⟨hkv, by simp [hkvks]⟩
        exact List.mem_map_of_mem (fun kv2 => key_mapper kv2.1) hkvf
      rw [build_table_stable rest _ _ _ h hst, dictLookup_dictSet_self]
    · by_cases hks0 : k0 = "keyspace_name"
      · simp only [build_table, if_pos hks0] at h
        have hnd2 : ((rest.filter (fun kv => !(kv.1 == "keyspace_name"))).map
            (fun kv => key_mapper kv.1)).Nodup := by
          rwa [List.filter_cons,
            if_neg (show ¬((!(k0 == "keyspace_name")) = true) by simp [hks0])] at hnd
        exact ih _ _ _ _ _ h hnd2 hmemrest hks hf
      · simp only [build_table, if_neg hks0] at h
        cases hf0 : table_field k0 v0 with
        | ok w =>
          rw [hf0] at h
          have hnd2 : ((rest.filter (fun kv => !(kv.1 == "keyspace_name"))).map
              (fun kv => key_mapper kv.1)).Nodup := by
            rw [List.filter_cons,
              if_pos (show (!(k0 == "keyspace_name")) = true by simp [hks0]),
              List.map_cons, List.nodup_cons] at hnd
            exact hnd.2
          exact ih _ _ _ _ _ h hnd2 hmemrest hks hf
        | error e =>
          rw [hf0] at h
          exact absurd h (by simp)

lemma tables_rows_loop_prefix (rows : List Row) :
    ∀ acc ts, tables_rows_loop rows acc = Except.ok ts →
    ∃ suf, ts = acc ++ suf := by
  induction rows with
  | nil =>
    intro acc ts h
    simp [tables_rows_loop] at h
    exact ⟨[], by simp [h]⟩
  | cons row rest ih =>
    intro acc ts h
    simp only [tables_rows_loop] at h
    cases hb : build_table row [] with
    | ok t =>
      rw [hb] at h
      obtain ⟨suf, hsuf⟩ := ih _ _ h
      exact ⟨PyVal.dict t :: suf, by simp [hsuf]⟩
    | error e =>
      rw [hb] at h
      exact absurd h (by simp)

lemma tables_rows_loop_mem (rows : List Row) :
    ∀ acc ts, tables_rows_loop rows acc = Except.ok ts →
    ∀ row ∈ rows, ∃ t, build_table row [] = Except.ok t ∧ PyVal.dict t ∈ ts := by
  induction rows with
  | nil =>
    intro acc ts _ row hmem
    simp at hmem
  | cons row0 rest ih =>
    intro acc ts h row hmem
    simp only [tables_rows_loop] at h
    cases hb : build_table row0 [] with
    | ok t0 =>
      rw [hb] at h
      rcases List.mem_cons.1 hmem with heq | hmemrest
      · subst heq
        obtain ⟨suf, hsuf⟩ := tables_rows_loop_prefix rest _ _ h
        exact ⟨t0, hb, by simp [hsuf]⟩
      · exact ih _ _ h row hmemrest
    | error e =>
      rw [hb] at h
      exact absurd h (by simp)

/-- C4: every table object produced by `get_table_configs` from a catalog
row drops "keyspace_name", renames "table_name" to "name", normalizes
every map-typed field ("replication" through the replication normalizer,
any other through the sub-config normalizer), turns a `SortedSet` under
"flags" into a sequence, stringifies "id", and passes every other field
through with key and value unchanged.  (The Nodup hypothesis holds for
real catalog rows: distinct column names, none named "name".) -/
theorem get_table_configs_row_spec (env : ClusterEnv)
    (conn : List (String × PyVal)) (ksname : PyVal) (rows : List Row)
    (ts : List PyVal) (row : Row)
    (hq : (exec_query env conn (table_query_stmt ksname)).2 = Except.ok rows)
    (h : get_table_configs env conn ksname = Except.ok ts)
    (hrow : row ∈ rows)
    (hnd : ((row.filter (fun kv => !(kv.1 == "keyspace_name"))).map
      (fun kv => key_mapper kv.1)).Nodup) :
    ∃ t, build_table row [] = Except.ok t ∧ PyVal.dict t ∈ ts ∧
      dictLookup t "keyspace_name" = Option.none ∧
      (∀ v, ("table_name", v) ∈ row → isOrderedMapB v = false →
        dictLookup t "name" = some v) ∧
      (∀ v d, ("replication", v) ∈ row → isOrderedMapB v = true →
        get_replication_settings v = Except.ok d →
        dictLookup t "replication" = some (PyVal.dict d)) ∧
      (∀ k v d, (k, v) ∈ row → isOrderedMapB v = true → k ≠ "replication" →
        k ≠ "keyspace_name" → get_subconfig_settings v = Except.ok d →
        dictLookup t (key_mapper k) = some (PyVal.dict d)) ∧
      (∀ xs, ("flags", PyVal.sortedSet xs) ∈ row →
        dictLookup t "flags" = some (PyVal.list xs)) ∧
      (∀ v, ("id", v) ∈ row → isOrderedMapB v = false →
        dictLookup t "id" = some (PyVal.str (pyStr v))) ∧
      (∀ k v, (k, v) ∈ row → k ≠ "keyspace_name" → k ≠ "flags" → k ≠ "id" →
        isOrderedMapB v = false → dictLookup t (key_mapper k) = some v) := by
  unfold get_table_configs at h
  simp only [hq] at h
  obtain ⟨t, hb, hmem⟩ := tables_rows_loop_mem rows [] ts h row hrow
  refine ⟨t, hb, hmem, ?_, ?_, ?_, ?_, ?_, ?_, ?_⟩
  · have hst := build_table_stable row [] t "keyspace_name" hb
      (fun kv _ hkvks hkm => hkvks (key_mapper_eq_ks kv.1 hkm))
    rw [hst]
    rfl
  · intro v hm hOM
    have hf : table_field "table_name" v = Except.ok v := by
      simp [table_field, hOM]
    have hl := build_table_mem row [] t "table_name" v v hb hnd hm (by decide) hf
    simpa [key_mapper] using hl
  · intro v d hm hOM hg
    have hf : table_field "replication" v = Except.ok (PyVal.dict d) := by
      simp [table_field, hOM, hg, Except.map]
    have hl := build_table_mem row [] t "replication" v _ hb hnd hm (by decide) hf
    simpa [key_mapper] using hl
  · intro k v d hm hOM hkrepl hkks hg
    have hf : table_field k v = Except.ok (PyVal.dict d) := by
      simp [table_field, hOM, hkrepl, hg, Except.map]
    exact build_table_mem row [] t k v _ hb hnd hm hkks hf
  · intro xs hm
    have hf : table_field "flags" (PyVal.sortedSet xs) =
        Except.ok (PyVal.list xs) := by
      simp [table_field, isOrderedMapB]
    have hl := build_table_mem row [] t "flags" _ _ hb hnd hm (by decide) hf
    simpa [key_mapper] using hl
  · intro v hm hOM
    have hf : table_field "id" v = Except.ok (PyVal.str (pyStr v)) := by
      simp [table_field, hOM]
    have hl := build_table_mem row [] t "id" v _ hb hnd hm (by decide) hf
    simpa [key_mapper] using hl
  · intro k v hm hkks hkfl hkid hOM
    have hf : table_field k v = Except.ok v := by
      simp [table_field, hOM, hkfl, hkid]
    exact build_table_mem row [] t k v v hb hnd hm hkks hf

/-- Witness for C4 on the demo table row: "keyspace_name" dropped,
"table_name" renamed, "id" stringified, "flags" turned into a list. -/
theorem get_table_configs_row_spec_witness :
    ∃ t, build_table
        [("keyspace_name", PyVal.str "My_App"),
         ("table_name", PyVal.str "t1"),
         ("id", PyVal.uuid "123e4567-e89b-12d3-a456-426614174000"),
         ("flags", PyVal.sortedSet [PyVal.str "compound"])] [] = Except.ok t ∧
      PyVal.dict t ∈
        [PyVal.dict
          [("name", PyVal.str "t1"),
           ("id", PyVal.str "123e4567-e89b-12d3-a456-426614174000"),
           ("flags", PyVal.list [PyVal.str "compound"])]] ∧
      dictLookup t "keyspace_name" = Option.none ∧
      (∀ v, ("table_name", v) ∈
          [(("keyspace_name" : String), PyVal.str "My_App"),
           (("table_name" : String), PyVal.str "t1"),
           (("id" : String), PyVal.uuid "123e4567-e89b-12d3-a456-426614174000"),
           (("flags" : String), PyVal.sortedSet [PyVal.str "compound"])] →
        isOrderedMapB v = false → dictLookup t "name" = some v) ∧
      (∀ v d, ("replication", v) ∈
          [(("keyspace_name" : String), PyVal.str "My_App"),
           (("table_name" : String), PyVal.str "t1"),
           (("id" : String), PyVal.uuid "123e4567-e89b-12d3-a456-426614174000"),
           (("flags" : String), PyVal.sortedSet [PyVal.str "compound"])] →
        isOrderedMapB v = true → get_replication_settings v = Except.ok d →
        dictLookup t "replication" = some (PyVal.dict d)) ∧
      (∀ k v d, (k, v) ∈
          [(("keyspace_name" : String), PyVal.str "My_App"),
           (("table_name" : String), PyVal.str "t1"),
           (("id" : String), PyVal.uuid "123e4567-e89b-12d3-a456-426614174000"),
           (("flags" : String), PyVal.sortedSet [PyVal.str "compound"])] →
        isOrderedMapB v = true → k ≠ "replication" → k ≠ "keyspace_name" →
        get_subconfig_settings v = Except.ok d →
        dictLookup t (key_mapper k) = some (PyVal.dict d)) ∧
      (∀ xs, ("flags", PyVal.sortedSet xs) ∈
          [(("keyspace_name" : String), PyVal.str "My_App"),
           (("table_name" : String), PyVal.str "t1"),
           (("id" : String), PyVal.uuid "123e4567-e89b-12d3-a456-426614174000"),
           (("flags" : String), PyVal.sortedSet [PyVal.str "compound"])] →
        dictLookup t "flags" = some (PyVal.list xs)) ∧
      (∀ v, ("id", v) ∈
          [(("keyspace_name" : String), PyVal.str "My_App"),
           (("table_name" : String), PyVal.str "t1"),
           (("id" : String), PyVal.uuid "123e4567-e89b-12d3-a456-426614174000"),
           (("flags" : String), PyVal.sortedSet [PyVal.str "compound"])] →
        isOrderedMapB v = false → dictLookup t "id" = some (PyVal.str (pyStr v))) ∧
      (∀ k v, (k, v) ∈
          [(("keyspace_name" : String), PyVal.str "My_App"),
           (("table_name" : String), PyVal.str "t1"),
           (("id" : String), PyVal.uuid "123e4567-e89b-12d3-a456-426614174000"),
           (("flags" : String), PyVal.sortedSet [PyVal.str "compound"])] →
        k ≠ "keyspace_name" → k ≠ "flags" → k ≠ "id" →
        isOrderedMapB v = false → dictLookup t (key_mapper k) = some v) :=
  get_table_configs_row_spec envDemo get_local_connection (PyVal.str "My_App")
    tblRowsDemo
    [PyVal.dict
      [("name", PyVal.str "t1"),
       ("id", PyVal.str "123e4567-e89b-12d3-a456-426614174000"),
       ("flags", PyVal.list [PyVal.str "compound"])]]
    [("keyspace_name", PyVal.str "My_App"),
     ("table_name", PyVal.str "t1"),
     ("id", PyVal.uuid "123e4567-e89b-12d3-a456-426614174000"),
     ("flags", PyVal.sortedSet [PyVal.str "compound"])]
    rfl rfl (List.Mem.head _) (by decide)

lemma attach_tables_spec (kss : List PyVal) :
    ∀ (env : ClusterEnv) (conn : List (String × PyVal)) (kss2 : List PyVal),
    attach_tables env conn kss = Except.ok kss2 →
    kss2.length = kss.length ∧
    ∀ i (hi : i < kss.length) (hi2 : i < kss2.length),
      ∃ d ts, kss.get ⟨i, hi⟩ = PyVal.dict d ∧
        get_table_configs env conn (dictGet d "name") = Except.ok ts ∧
        kss2.get ⟨i, hi2⟩ = PyVal.dict (dictSet d "tables" (PyVal.list ts)) := by
  induction kss with
  | nil =>
    intro env conn kss2 h
    simp [attach_tables] at h
    subst h
    exact ⟨rfl, fun i hi _ => absurd hi (by simp)⟩
  | cons ks rest ih =>
    intro env conn kss2 h
    cases ks with
    | dict d =>
      simp only [attach_tables] at h
      cases hg : get_table_configs env conn (dictGet d "name") with
      | error e =>
        rw [hg] at h
        exact absurd h (by simp)
      | ok ts =>
        rw [hg] at h
        cases ha : attach_tables env conn rest with
        | error e =>
          rw [ha] at h
          exact absurd h (by simp)
        | ok rest2 =>
          rw [ha] at h
          have hkss2 : kss2 =
              PyVal.dict (dictSet d "tables" (PyVal.list ts)) :: rest2 := by
            simpa using h.symm
          subst hkss2
          obtain ⟨hlen, hidx⟩ := ih env conn rest2 ha
          refine ⟨by simp [hlen], ?_⟩
          intro i hi hi2
          cases i with
          | zero => exact ⟨d, ts, rfl, hg, rfl⟩
          | succ j =>
            exact hidx j (by simpa using hi) (by simpa using hi2)
    | str s => exact absurd h (by simp [attach_tables])
    | int n => exact absurd h (by simp [attach_tables])
    | float f => exact absurd h (by simp [attach_tables])
    | bool b => exact absurd h (by simp [attach_tables])
    | none => exact absurd h (by simp [attach_tables])
    | list xs => exact absurd h (by simp [attach_tables])
    | orderedMap es => exact absurd h (by simp [attach_tables])
    | sortedSet xs => exact absurd h (by simp [attach_tables])
    | uuid s => exact absurd h (by simp [attach_tables])
    | roundRobinPolicy => exact absurd h (by simp [attach_tables])

/-- C8: `get_current_config` returns `{keyspaces: S}` where `S` is exactly
the keyspace sequence `get_keyspace_configs` returned for the connection,
with each element augmented in place by a "tables" entry holding
`get_table_configs(connection, name)` for that keyspace's name and every
other field unchanged. -/
theorem get_current_config_spec (env : ClusterEnv)
    (conn : List (String × PyVal)) (kss : List PyVal)
    (out : List (String × PyVal))
    (hconn : conn ≠ [])
    (hks : get_keyspace_configs env conn =
      Except.ok [("keyspaces", PyVal.list kss)])
    (h : get_current_config env (some conn) = Except.ok out) :
    ∃ kss2 : List PyVal,
      out = [("keyspaces", PyVal.list kss2)] ∧
      kss2.length = kss.length ∧
      ∀ i (hi : i < kss.length) (hi2 : i < kss2.length),
        ∃ d ts, kss.get ⟨i, hi⟩ = PyVal.dict d ∧
          get_table_configs env conn (dictGet d "name") = Except.ok ts ∧
          kss2.get ⟨i, hi2⟩ = PyVal.dict (dictSet d "tables" (PyVal.list ts)) ∧
          dictLookup (dictSet d "tables" (PyVal.list ts)) "tables" =
            some (PyVal.list ts) ∧
          (∀ k2, k2 ≠ "tables" →
            dictLookup (dictSet d "tables" (PyVal.list ts)) k2 =
              dictLookup d k2) := by
  have hne : conn.isEmpty = false := by
    cases conn with
    | nil => exact absurd rfl hconn
    | cons kv rest => rfl
  unfold get_current_config at h
  simp only [hne, Bool.false_eq_true, if_false, hks] at h
  cases ha : attach_tables env conn kss with
  | error e =>
    rw [show dictGet [("keyspaces", PyVal.list kss)] "keyspaces" =
      PyVal.list kss from rfl] at h
    rw [ha] at h
    exact absurd h (by simp)
  | ok kss2 =>
    rw [show dictGet [("keyspaces", PyVal.list kss)] "keyspaces" =
      PyVal.list kss from rfl] at h
    rw [ha] at h
    have hout : out = [("keyspaces", PyVal.list kss2)] := by
      simpa [dictSet] using h.symm
    obtain ⟨hlen, hidx⟩ := attach_tables_spec kss env conn kss2 ha
    refine ⟨kss2, hout, hlen, ?_⟩
    intro i hi hi2
    obtain ⟨d, ts, hd, hg, hk2⟩ := hidx i hi hi2
    exact ⟨d, ts, hd, hg, hk2, dictLookup_dictSet_self _ _ _,
      fun k2 hk => dictLookup_dictSet_ne _ _ _ _ (Ne.symm hk)⟩

/-- Witness for C8 on the demo environment: the keyspace config for
"My_App" is returned with its "tables" entry attached and all other
fields unchanged. -/
theorem get_current_config_spec_witness :
    ∃ kss2 : List PyVal,
      ([("keyspaces", PyVal.list
        [PyVal.dict
          [("name", PyVal.str "My_App"),
           ("durable_writes", PyVal.bool true),
           ("replication", PyVal.dict
             [("class", PyVal.str "SimpleStrategy"),
              ("replication_factor", PyVal.int 3),
              ("data_centers", PyVal.list [])]),
           ("tables", PyVal.list
             [PyVal.dict
               [("name", PyVal.str "t1"),
                ("id", PyVal.str "123e4567-e89b-12d3-a456-426614174000"),
                ("flags", PyVal.list [PyVal.str "compound"])]])]])] :
        List (String × PyVal)) = [("keyspaces", PyVal.list kss2)] ∧
      kss2.length = ([PyVal.dict
        [("name", PyVal.str "My_App"),
         ("durable_writes", PyVal.bool true),
         ("replication", PyVal.dict
           [("class", PyVal.str "SimpleStrategy"),
            ("replication_factor", PyVal.int 3),
            ("data_centers", PyVal.list [])])]] : List PyVal).length ∧
      ∀ i (hi : i < ([PyVal.dict
          [("name", PyVal.str "My_App"),
           ("durable_writes", PyVal.bool true),
           ("replication", PyVal.dict
             [("class", PyVal.str "SimpleStrategy"),
              ("replication_factor", PyVal.int 3),
              ("data_centers", PyVal.list [])])]] : List PyVal).length)
        (hi2 : i < kss2.length),
        ∃ d ts, ([PyVal.dict
            [("name", PyVal.str "My_App"),
             ("durable_writes", PyVal.bool true),
             ("replication", PyVal.dict
               [("class", PyVal.str "SimpleStrategy"),
                ("replication_factor", PyVal.int 3),
                ("data_centers", PyVal.list [])])]] : List PyVal).get ⟨i, hi⟩ =
            PyVal.dict d ∧
          get_table_configs envDemo get_local_connection (dictGet d "name") =
            Except.ok ts ∧
          kss2.get ⟨i, hi2⟩ = PyVal.dict (dictSet d "tables" (PyVal.list ts)) ∧
          dictLookup (dictSet d "tables" (PyVal.list ts)) "tables" =
            some (PyVal.list ts) ∧
          (∀ k2, k2 ≠ "tables" →
            dictLookup (dictSet d "tables" (PyVal.list ts)) k2 =
              dictLookup d k2) :=
  get_current_config_spec envDemo get_local_connection
    [PyVal.dict
      [("name", PyVal.str "My_App"),
       ("durable_writes", PyVal.bool true),
       ("replication", PyVal.dict
         [("class", PyVal.str "SimpleStrategy"),
          ("replication_factor", PyVal.int 3),
          ("data_centers", PyVal.list [])])]]
    [("keyspaces", PyVal.list
      [PyVal.dict
        [("name", PyVal.str "My_App"),
         ("durable_writes", PyVal.bool true),
         ("replication", PyVal.dict
           [("class", PyVal.str "SimpleStrategy"),
            ("replication_factor", PyVal.int 3),
            ("data_centers", PyVal.list [])]),
         ("tables", PyVal.list
           [PyVal.dict
             [("name", PyVal.str "t1"),
              ("id", PyVal.str "123e4567-e89b-12d3-a456-426614174000"),
              ("flags", PyVal.list [PyVal.str "compound"])]])]])]
    (List.cons_ne_nil _ _) rfl rfl
